import Mathlib

/-!
Shallow embedding, in Lean 4, of the retrieval core of the `policynthknol`
repository: the semantic chunker and section classifier
(`services/document_processor.py`), the intent analyzer
(`services/intent_analyzer.py`), the FAISS-backed vector store with its
multiplicative relevance scorer (`services/vector_store.py`), and the
per-question answering loop (`services/query_engine.py`).

Modelling conventions:
* Python strings are Lean `String`s; every operation on them is implemented
  on the underlying `List Char` (`.data`), mirroring the CPython semantics
  of the exact calls the source makes (`split`, `strip`, `lower`, `in`,
  regex patterns used by the source), restricted to ASCII text.
* Python floats are modelled as `ℚ`.
* External collaborators (the sentence-transformer encoder, the FAISS
  similarity search, PDF/DOCX parsing, the LLM) are parameters: the encoder
  is a `String → List ℚ` argument, the result list of `faiss.Index.search`
  is a `(score, index)` candidate-list argument, and fallible pipeline steps
  are `Except String` valued parameters.
* The FAISS `IndexFlatIP` object itself lives in an external C library; the
  Python code observes it only through `ntotal` and through the candidate
  list returned by `search`, so the store state tracks the vector count
  `ntotal` together with the `chunks_metadata` dict and the two on-disk
  artifacts.
-/

/-! ### Character and string primitives (Python `str` semantics on ASCII) -/

/-- Python whitespace (`\s`, and the separator set of `str.split()`/`str.strip()`). -/
def isWsChar (c : Char) : Bool :=
  c = ' ' || c = '\t' || c = '\n' || c = '\r' || c = '\x0b' || c = '\x0c'

/-- ASCII digit, the `\d` class and `str.isdigit` on ASCII. -/
def isDigitChar (c : Char) : Bool := 48 ≤ c.toNat && c.toNat ≤ 57

/-- The regex class `[A-Z]`. -/
def isUpperAZ (c : Char) : Bool := 65 ≤ c.toNat && c.toNat ≤ 90

/-- The regex class `[a-z]`. -/
def isLowerAZ (c : Char) : Bool := 97 ≤ c.toNat && c.toNat ≤ 122

/-- A cased ASCII character (what `str.isupper` quantifies over). -/
def isCasedChar (c : Char) : Bool := isUpperAZ c || isLowerAZ c

/-- The regex class `\w` on ASCII: letters, digits, underscore. -/
def isWordChar (c : Char) : Bool := isLowerAZ c || isUpperAZ c || isDigitChar c || c = '_'

/-- The `str.lower` on one ASCII character. -/
def lowerChar (c : Char) : Char :=
  if 65 ≤ c.toNat ∧ c.toNat ≤ 90 then Char.ofNat (c.toNat + 32) else c

/-- Python `s.lower()` (ASCII). -/
def pyLower (s : String) : String := String.mk (s.data.map lowerChar)

/-- Strip Python whitespace from both ends of a character list. -/
def stripChars (cs : List Char) : List Char :=
  ((cs.dropWhile isWsChar).reverse.dropWhile isWsChar).reverse

/-- Python `s.strip()`. -/
def pyStrip (s : String) : String := String.mk (stripChars s.data)

/-- Helper for `pySplitWs`: accumulate the current word (reversed) while
scanning; whitespace runs end words, empty pieces are dropped. -/
def wordsAux : List Char → List Char → List (List Char)
  | [], [] => []
  | [], acc => [acc.reverse]
  | c :: cs, acc =>
    if isWsChar c then
      (if acc = [] then wordsAux cs [] else acc.reverse :: wordsAux cs [])
    else wordsAux cs (c :: acc)

/-- Python `s.split()` with no argument: split on whitespace runs, dropping
empty pieces. -/
def pySplitWs (s : String) : List String := (wordsAux s.data []).map String.mk

/-- The `len(s.split())`, the word count the source uses throughout. -/
def numWords (s : String) : Nat := (pySplitWs s).length

/-- Python `len(s)` (character count; our inputs are ASCII). -/
def strLen (s : String) : Nat := s.data.length

/-- List-prefix test by character equality. -/
def isPrefixChars : List Char → List Char → Bool
  | [], _ => true
  | _ :: _, [] => false
  | a :: as, b :: bs => a = b && isPrefixChars as bs

/-- List-infix test: does `needle` occur contiguously inside the second list? -/
def isInfixChars (needle : List Char) : List Char → Bool
  | [] => isPrefixChars needle []
  | c :: cs => isPrefixChars needle (c :: cs) || isInfixChars needle cs

/-- Python `needle in hay` on strings (substring containment). -/
def strContains (hay needle : String) : Bool := isInfixChars needle.data hay.data

/-- Python `any(word in hay for word in needles)`. -/
def anyTermIn (hay : String) (needles : List String) : Bool :=
  needles.any (fun w => strContains hay w)

/-- Split a character list at every occurrence of `sep` (Python
`s.split(sep)` semantics: `n` separators yield `n + 1` pieces). -/
def splitCharsOn (sep : Char) : List Char → List Char → List (List Char)
  | [], acc => [acc.reverse]
  | c :: cs, acc =>
    if c = sep then acc.reverse :: splitCharsOn sep cs []
    else splitCharsOn sep cs (c :: acc)

/-- Python `text.split('\n')`. -/
def pySplitLines (s : String) : List String := (splitCharsOn '\n' s.data []).map String.mk

/-- Python `s.isupper()` on ASCII: at least one cased character, and every
cased character uppercase. -/
def pyIsUpper (s : String) : Bool :=
  let cased := s.data.filter isCasedChar
  !cased.isEmpty && cased.all isUpperAZ

/-- Python `s.endswith(':')`. -/
def endsWithColon (s : String) : Bool := s.data.getLast? = some ':'

/-- Python `any(char.isdigit() for char in s)` / regex `\d+` search. -/
def hasDigit (s : String) : Bool := s.data.any isDigitChar

/-- Interleave a separator between character lists (`sep.join` on `str`). -/
def intercalChars (sep : List Char) : List (List Char) → List Char
  | [] => []
  | [x] => x
  | x :: y :: xs => x ++ sep ++ intercalChars sep (y :: xs)

/-- Python `' '.join(pieces)`. -/
def joinSpace (l : List String) : String :=
  String.mk (intercalChars [' '] (l.map String.data))

/-! ### Data model (`models/schemas.py`) -/

/-- The fixed-schema metadata dict attached to every chunk by
`DocumentProcessor._create_chunk_with_metadata`. The dict key `section` is
rendered as the field `sectionLabel`. -/
structure ChunkMetadata where
  source : String
  sectionLabel : String
  type : String
  chunk_type : String
  is_heading : Bool
  chunk_index : Nat
  word_count : Nat
  has_numbers : Bool
  has_definitions : Bool
deriving DecidableEq

/-- The `models.schemas.DocumentChunk` (pydantic): `embedding` defaults to `None`. -/
structure DocumentChunk where
  id : String
  text : String
  metadata : ChunkMetadata
  embedding : Option (List ℚ) := none
deriving DecidableEq

/-- A value of the `chunks_metadata` dict in `VectorStore`: the
`{id, text, metadata}` snapshot stored per index position. -/
structure StoredChunk where
  id : String
  text : String
  metadata : ChunkMetadata
deriving DecidableEq

/-- The `models.schemas.RetrievalResult`. -/
structure RetrievalResult where
  chunk : DocumentChunk
  score : ℚ
deriving DecidableEq

/-- The dict returned by `LocalIntentAnalyzer.analyze_intent`. -/
structure IntentResult where
  intent_type : String
  looking_for : String
  expects_numbers : Bool
  key_concepts : List String
  confidence : ℚ
deriving DecidableEq

/-! ### Configuration constants (`config/settings.py`) -/

/-- The `settings.SIMILARITY_THRESHOLD = 0.2`. -/
def SIMILARITY_THRESHOLD : ℚ := 0.2

/-- The `settings.MAX_SEARCH_CANDIDATES = 15`. -/
def MAX_SEARCH_CANDIDATES : Nat := 15

/-- The `settings.TOP_K_RETRIEVAL = 4`. -/
def TOP_K_RETRIEVAL : Nat := 4

/-! ### Document processor (`services/document_processor.py`) -/

/-- A section dict produced by `_split_by_semantic_boundaries`:
`{'text': ..., 'heading': ..., 'type': 'content' | 'heading'}`; the dict key
`type` is rendered as the field `kind`. -/
structure DocSection where
  text : String
  heading : String
  kind : String
deriving DecidableEq

/-- The `DocumentProcessor.detect_section_type`: priority-ordered,
case-insensitive keyword matching with fallback `policy_clause`
(source lines 247-267). -/
def detect_section_type (text : String) : String :=
  let text_lower := pyLower text
  if anyTermIn text_lower ["definition", "means", "defined as", "shall mean"] then "definitions"
  else if anyTermIn text_lower ["coverage", "benefit", "covered", "insured", "protection"] then "coverage"
  else if anyTermIn text_lower ["exclusion", "excluded", "not covered", "does not cover"] then "exclusions"
  else if anyTermIn text_lower ["limit", "maximum", "minimum", "deductible", "amount"] then "limits"
  else if anyTermIn text_lower ["claim", "procedure", "process", "submit"] then "claims"
  else if anyTermIn text_lower ["premium", "payment", "cost", "fee"] then "premiums"
  else if anyTermIn text_lower ["condition", "requirement", "must", "shall"] then "conditions"
  else "policy_clause"

/-- The closed category set of the section classifier, in the priority order
stated by the spec (fallback last). -/
def sectionTypeOrder : List (String × List String) :=
  [("definitions", ["definition", "means", "defined as", "shall mean"]),
   ("coverage", ["coverage", "benefit", "covered", "insured", "protection"]),
   ("exclusions", ["exclusion", "excluded", "not covered", "does not cover"]),
   ("limits", ["limit", "maximum", "minimum", "deductible", "amount"]),
   ("claims", ["claim", "procedure", "process", "submit"]),
   ("premiums", ["premium", "payment", "cost", "fee"]),
   ("conditions", ["condition", "requirement", "must", "shall"])]

/-- Spec-side rendering of the classifier contract (spec section 4.2): walk the
priority-ordered category list, the first category whose keyword set hits the
lowercased text wins, `policy_clause` is the fallback. Stated from the spec's
words, to be compared with `detect_section_type`. -/
def sectionTypeSpec (text : String) : String :=
  match sectionTypeOrder.find? (fun p => anyTermIn (pyLower text) p.2) with
  | some p => p.1
  | none => "policy_clause"

/-- Regex `^\d+\.\s+[A-Z]` via `re.match` (a numbered heading such as
`3. Coverage`). -/
def numberedHeadingMatch (cs : List Char) : Bool :=
  let ds := cs.takeWhile isDigitChar
  match cs.drop ds.length with
  | '.' :: rest =>
    let ws := rest.takeWhile isWsChar
    !ds.isEmpty && !ws.isEmpty &&
      (match rest.drop ws.length with
       | d :: _ => isUpperAZ d
       | [] => false)
  | _ => false

/-- Regex `^[A-Z][A-Z\s]{10,}$` via `re.match` (a long all-caps block). -/
def capsBlockMatch (cs : List Char) : Bool :=
  match cs with
  | c :: rest => isUpperAZ c && decide (10 ≤ rest.length) && rest.all (fun d => isUpperAZ d || isWsChar d)
  | [] => false

/-- The section-break test of `_split_by_semantic_boundaries` (source lines
142-145): all-uppercase and longer than 10, or a numbered heading, or a long
all-caps block, or a short line (at most 5 words) ending in a colon. -/
def isSectionBreak (line : String) : Bool :=
  (pyIsUpper line && decide (10 < strLen line)) ||
  numberedHeadingMatch line.data ||
  capsBlockMatch line.data ||
  (endsWithColon line && decide ((pySplitWs line).length ≤ 5))

/-- One line of the `_split_by_semantic_boundaries` loop: blank stripped lines
are skipped; a section break closes the current section (when its text strips
non-empty) and opens a heading-labelled one; other lines are appended to the
current section's text after a newline. -/
def boundaryStep (st : List DocSection × DocSection) (rawLine : String) :
    List DocSection × DocSection :=
  let line := pyStrip rawLine
  if line = "" then st
  else if isSectionBreak line then
    let secs := if pyStrip st.2.text ≠ "" then st.1 ++ [st.2] else st.1
    (secs, ⟨line, line, "heading"⟩)
  else (st.1, { st.2 with text := st.2.text ++ "\n" ++ line })

/-- The `DocumentProcessor._split_by_semantic_boundaries` (source lines 130-164). -/
def split_by_semantic_boundaries (text : String) : List DocSection :=
  let st := (pySplitLines text).foldl boundaryStep ([], ⟨"", "", "content"⟩)
  if pyStrip st.2.text ≠ "" then st.1 ++ [st.2] else st.1

/-- Is the character one of the sentence-ending `[.!?]`? -/
def punctChar (c : Char) : Bool := c = '.' || c = '!' || c = '?'

/-- Scanner for `re.split(r'(?<=[.!?])\s+(?=[A-Z])', text)`: a split happens
exactly at a whitespace run that immediately follows `[.!?]` and is
immediately followed by `[A-Z]`; the matched whitespace is consumed. The
scan runs in two modes: `none` is the plain scan with `acc` the current
piece (reversed); `some wsbuf` means the piece in `acc` currently ends with
`[.!?]` and `wsbuf` holds the whitespace run (reversed) seen since, still
undecided between "split here" and "keep scanning". -/
def sentScan : List Char → List Char → Option (List Char) → List (List Char)
  | [], acc, none => [acc.reverse]
  | [], acc, some wsbuf => [(wsbuf ++ acc).reverse]
  | c :: cs, acc, none =>
    if punctChar c then sentScan cs (c :: acc) (some [])
    else sentScan cs (c :: acc) none
  | c :: cs, acc, some wsbuf =>
    if isWsChar c then sentScan cs acc (some (c :: wsbuf))
    else if !wsbuf.isEmpty && isUpperAZ c then acc.reverse :: sentScan cs [c] none
    else if punctChar c then sentScan cs (c :: (wsbuf ++ acc)) (some [])
    else sentScan cs (c :: (wsbuf ++ acc)) none

/-- The `DocumentProcessor._split_into_sentences` (source lines 206-210): regex
split, then strip each piece and drop empties. -/
def split_into_sentences (text : String) : List String :=
  ((sentScan text.data [] none).map (fun cs => String.mk (stripChars cs))).filter
    (fun s => s ≠ "")

/-- Helper for `_get_overlap_sentences`: walk the reversed sentence list,
greedily prepending sentences while the cumulative word count stays within
the overlap budget, stopping at the first overflow. -/
def overlapAux (ow : Nat) : List String → Nat → List String → List String
  | [], _, acc => acc
  | s :: rest, wc, acc =>
    if wc + numWords s ≤ ow then overlapAux ow rest (wc + numWords s) (s :: acc)
    else acc

/-- The `DocumentProcessor._get_overlap_sentences` (source lines 212-225). -/
def get_overlap_sentences (sentences : List String) (overlap_words : Nat) : List String :=
  overlapAux overlap_words sentences.reverse 0 []

/-- The `DocumentProcessor._create_chunk_with_metadata` (source lines 227-245).
The `id` is `uuid.uuid4()` in the source — external randomness, modelled as
the empty string (no claim depends on it). -/
def create_chunk_with_metadata (text : String) (sec : DocSection) (chunk_index : Nat) :
    DocumentChunk :=
  { id := "",
    text := text,
    metadata :=
      { source := "document",
        sectionLabel := String.mk (sec.heading.data.take 100),
        type := detect_section_type text,
        chunk_type := sec.kind,
        is_heading := sec.kind = "heading",
        chunk_index := chunk_index,
        word_count := numWords text,
        has_numbers := hasDigit text,
        has_definitions := strContains (pyLower text) "means" || strContains (pyLower text) "defined as" },
    embedding := none }

/-- Loop state of `_create_overlapping_chunks`: emitted chunks, accumulated
sentences, tracked cumulative word count (`current_words`). -/
abbrev ChunkState := List DocumentChunk × List String × Nat

/-- One sentence of the `_create_overlapping_chunks` loop (source lines
178-195): on overflow of the 100-word window with a non-empty accumulator,
emit the accumulated chunk only when it reaches 50 words, then reseed with
the greedy 20-word overlap suffix plus the new sentence; otherwise append. -/
def chunkStep (sec : DocSection) (st : ChunkState) (sentence : String) : ChunkState :=
  let sentence_words := numWords sentence
  if 100 < st.2.2 + sentence_words ∧ st.2.1 ≠ [] then
    let chunk_text := joinSpace st.2.1
    let chunks :=
      if 50 ≤ numWords chunk_text then
        st.1 ++ [create_chunk_with_metadata chunk_text sec st.1.length]
      else st.1
    let current := get_overlap_sentences st.2.1 20 ++ [sentence]
    (chunks, current, (current.map numWords).sum)
  else (st.1, st.2.1 ++ [sentence], st.2.2 + sentence_words)

/-- The `DocumentProcessor._create_overlapping_chunks` (source lines 166-204);
`chunk_size = 100` and `overlap_size = 20` are the hardcoded local constants. -/
def create_overlapping_chunks (sec : DocSection) : List DocumentChunk :=
  let st := (split_into_sentences sec.text).foldl (chunkStep sec) ([], [], 0)
  if st.2.1 ≠ [] then
    if 50 ≤ numWords (joinSpace st.2.1) then
      st.1 ++ [create_chunk_with_metadata (joinSpace st.2.1) sec st.1.length]
    else st.1
  else st.1

/-- The `DocumentProcessor.create_semantic_chunks` (source lines 109-128):
boundary detection, then per-section overlapping chunking, concatenated in
order. -/
def create_semantic_chunks (text : String) : List DocumentChunk :=
  ((split_by_semantic_boundaries text).map create_overlapping_chunks).flatten

/-! ### Intent analyzer (`services/intent_analyzer.py`) -/

/-- The `LocalIntentAnalyzer.intent_patterns`: the six intent categories with
their five canonical example questions each, in insertion order. -/
def intentPatterns : List (String × List String) :=
  [("definition",
    ["What is grace period", "Define deductible", "What does this mean",
     "Explain the term", "What is the meaning of"]),
   ("specific_value",
    ["How many days for grace period", "What is the amount of deductible",
     "How long is the waiting period", "What is the maximum limit",
     "How much is the premium"]),
   ("coverage_check",
    ["Is maternity covered", "Does this include dental",
     "What is covered under this policy", "Are pre-existing diseases covered",
     "Is this treatment included"]),
   ("exclusion_check",
    ["What is excluded from coverage", "Is this not covered",
     "What are the exclusions", "Are there any restrictions",
     "What is not included"]),
   ("time_period",
    ["How long is the waiting period", "What is the grace period duration",
     "How many months for pre-existing", "What is the cooling period",
     "How long do I have to wait"]),
   ("limits",
    ["What is the maximum coverage", "What are the policy limits",
     "What is the sum insured", "What is the room rent limit",
     "What is the annual limit"])]

/-- The `np.dot` of two vectors. -/
def dot (a b : List ℚ) : ℚ := (List.zipWith (fun x y => x * y) a b).sum

/-- The `np.max` over a vector of similarities. (`np.max` raises on an empty
array; every pattern list above has five entries, so the `[]` case is never
reached.) -/
def npMax : List ℚ → ℚ
  | [] => 0
  | x :: xs => xs.foldl max x

/-- The per-category score of `analyze_intent`:
`np.max(np.dot(pattern_embeddings, question_embedding))`, with the
pattern embeddings produced by the same encoder at construction time. -/
def intentMaxSim (encode : String → List ℚ) (question : String)
    (p : String × List String) : ℚ :=
  npMax (p.2.map (fun pat => dot (encode pat) (encode question)))

/-- The insurance-term list of `LocalIntentAnalyzer._extract_key_concepts`. -/
def conceptTerms : List String :=
  ["grace period", "waiting period", "cooling period",
   "pre-existing", "maternity", "pregnancy",
   "deductible", "co-pay", "excess",
   "sum insured", "coverage", "limit",
   "hospitalization", "outpatient", "cashless",
   "claim", "premium", "policy"]

/-- The `LocalIntentAnalyzer._extract_key_concepts` (source lines 96-114). -/
def extract_key_concepts (question : String) : List String :=
  conceptTerms.filter (fun t => strContains (pyLower question) t)

/-- The numeric-cue list of `LocalIntentAnalyzer._expects_numbers`. -/
def numericalIndicators : List String :=
  ["how much", "how many", "how long",
   "what is the amount", "what is the limit",
   "days", "months", "years", "percentage"]

/-- The `LocalIntentAnalyzer._expects_numbers` (source lines 116-125). -/
def expects_numbers_of (question : String) : Bool :=
  numericalIndicators.any (fun i => strContains (pyLower question) i)

/-- The static lookup table of `LocalIntentAnalyzer._get_looking_for`. -/
def intentLookingFor : List (String × String) :=
  [("definition", "explanation or meaning"),
   ("specific_value", "exact numbers or amounts"),
   ("coverage_check", "what is covered"),
   ("exclusion_check", "what is excluded"),
   ("time_period", "duration or time limits"),
   ("limits", "maximum amounts or limits")]

/-- The `LocalIntentAnalyzer._get_looking_for` (source lines 127-138). -/
def get_looking_for (intent_type : String) : String :=
  match intentLookingFor.find? (fun p => p.1 = intent_type) with
  | some p => p.2
  | none => "general information"

/-- The `LocalIntentAnalyzer.analyze_intent` (source lines 67-94). The
sentence-transformer encoder is external; it enters as the `encode`
parameter, used both for the canonical pattern embeddings (precomputed in
`__init__` from the same model) and for the question embedding. -/
def analyze_intent (encode : String → List ℚ) (question : String) : IntentResult :=
  let best := intentPatterns.foldl
    (fun best p =>
      if best.2 < intentMaxSim encode question p then (p.1, intentMaxSim encode question p)
      else best)
    ("general", 0)
  { intent_type := best.1,
    looking_for := get_looking_for best.1,
    expects_numbers := expects_numbers_of question,
    key_concepts := extract_key_concepts question,
    confidence := best.2 }

/-! ### Vector store (`services/vector_store.py`) -/

/-- In-memory and on-disk state of `VectorStore`. The FAISS `IndexFlatIP`
lives in an external C library and is observed by the Python code only
through its vector count `ntotal` (search results enter separately as a
candidate list, see `search_similar`). `chunks_metadata` is the int-keyed
dict of stored snapshots; `fileIndex`/`fileMetadata` are the two persisted
artifacts (`faiss_index.bin` content summarised by its vector count, and
the JSON metadata sidecar), `none` when the file is absent. -/
structure VectorStoreState where
  ntotal : Nat
  chunks_metadata : List (Nat × StoredChunk)
  fileIndex : Option Nat
  fileMetadata : Option (List (Nat × StoredChunk))

/-- Python dict assignment `d[k] = v` on an int-keyed dict rendered as an
association list: replace in place if the key exists, else append. -/
def dictInsert (k : Nat) (v : StoredChunk) :
    List (Nat × StoredChunk) → List (Nat × StoredChunk)
  | [] => [(k, v)]
  | (k', v') :: rest => if k' = k then (k, v) :: rest else (k', v') :: dictInsert k v rest

/-- Python `d.get(k)` for a natural-number key. -/
def dictGetNat (k : Nat) : List (Nat × StoredChunk) → Option StoredChunk
  | [] => none
  | (k', v) :: rest => if k' = k then some v else dictGetNat k rest

/-- Python `d.get(idx)` where `idx` is the (possibly `-1`) int64 index
returned by FAISS; the dict only ever holds non-negative keys. -/
def dictGet (idx : Int) (d : List (Nat × StoredChunk)) : Option StoredChunk :=
  if idx < 0 then none else dictGetNat idx.toNat d

/-- The `VectorStore.clear_index` (source lines 287-291): reset the FAISS index
(vector count to zero) and delete the on-disk index file; the
`chunks_metadata` dict and the metadata file are deliberately kept. -/
def clear_index (st : VectorStoreState) : VectorStoreState :=
  { st with ntotal := 0, fileIndex := none }

/-- The `VectorStore.complete_cleanup` (source lines 293-302): reset the index,
clear the metadata dict, and remove both persisted files. -/
def complete_cleanup (_st : VectorStoreState) : VectorStoreState :=
  { ntotal := 0, chunks_metadata := [], fileIndex := none, fileMetadata := none }

/-- The `VectorStore._save_index` (source lines 304-311); write failures are
swallowed by the source, the success path is modelled. -/
def save_index (st : VectorStoreState) : VectorStoreState :=
  { st with fileIndex := some st.ntotal, fileMetadata := some st.chunks_metadata }

/-- Python truthiness of `chunk.embedding` (`None` and `[]` are falsy). -/
def chunkTruthyEmbedding (c : DocumentChunk) : Bool :=
  match c.embedding with
  | some l => !l.isEmpty
  | none => false

/-- The `{id, text, metadata}` snapshot stored into `chunks_metadata`. -/
def toStoredChunk (c : DocumentChunk) : StoredChunk := ⟨c.id, c.text, c.metadata⟩

/-- The `VectorStore.store_chunks` (source lines 21-59): early return on an
empty list; otherwise `clear_index`, then for each chunk with a truthy
embedding append its (externally normalized) vector and write the snapshot
at key `len(vectors) - 1`; if any vector was collected, add them to the
index and persist. -/
def store_chunks (st : VectorStoreState) (chunks : List DocumentChunk) : VectorStoreState :=
  if chunks = [] then st
  else
    let st1 := clear_index st
    let embedded := chunks.filter chunkTruthyEmbedding
    let md := embedded.enum.foldl (fun d p => dictInsert p.1 (toStoredChunk p.2) d)
      st1.chunks_metadata
    if embedded = [] then { st1 with chunks_metadata := md }
    else save_index { st1 with chunks_metadata := md, ntotal := embedded.length }

/-- One conditional multiplicative boost: `if cond: score *= k`. -/
def boostIf (b : Bool) (k score : ℚ) : ℚ := if b then score * k else score

/-- The intent-section alignment block of `_calculate_enhanced_score`
(source lines 133-150), applied only when `query_intent` is truthy. -/
def intentSectionBoost (score : ℚ) (query_intent : Option IntentResult)
    (metadata : ChunkMetadata) : ℚ :=
  match query_intent with
  | none => score
  | some qi =>
    let intent_type := qi.intent_type
    let section_type := metadata.type
    let score :=
      if intent_type = "definition" ∧ section_type = "definitions" then score * 1.8
      else if (intent_type = "specific_value" ∨ intent_type = "time_period") ∧
          (section_type = "coverage" ∨ section_type = "conditions" ∨ section_type = "limits") then
        score * 1.6
      else if intent_type = "coverage_check" ∧
          (section_type = "coverage" ∨ section_type = "benefits") then score * 1.5
      else if intent_type = "exclusion_check" ∧ section_type = "exclusions" then score * 1.7
      else score
    if (intent_type = "specific_value" ∨ intent_type = "time_period" ∨ intent_type = "limits") ∧
        metadata.has_numbers then score * 1.3
    else score

/-- The section-type base priority block of `_calculate_enhanced_score`
(source lines 152-161). -/
def sectionTypeBoost (score : ℚ) (section_type : String) : ℚ :=
  if section_type = "definitions" then score * 1.6
  else if section_type = "coverage" ∨ section_type = "limits" ∨ section_type = "benefits" then
    score * 1.4
  else if section_type = "exclusions" ∨ section_type = "conditions" then score * 1.3
  else if section_type = "claims" ∨ section_type = "procedures" then score * 1.2
  else score

/-- The `insurance_terms` dict of `_apply_insurance_query_boosts`
(source lines 218-225), in insertion order. -/
def insuranceTerms : List (String × List String) :=
  [("premium", ["premium", "payment", "cost"]),
   ("deductible", ["deductible", "excess", "co-pay"]),
   ("claim", ["claim", "settlement", "reimbursement"]),
   ("hospitalization", ["hospitalization", "hospital", "inpatient"]),
   ("pre-existing", ["pre-existing", "pre existing", "prior condition"]),
   ("waiting period", ["waiting period", "waiting", "exclusion period"])]

/-- The final loop of `_apply_insurance_query_boosts` over the term dict
(source lines 227-230), stated over an arbitrary term list for induction. -/
def insuranceTermsFoldAux (query_lower chunk_lower : String)
    (l : List (String × List String)) (score : ℚ) : ℚ :=
  l.foldl
    (fun sc p => boostIf (strContains query_lower p.1 && anyTermIn chunk_lower p.2) 1.5 sc)
    score

/-- The `VectorStore._apply_insurance_query_boosts` (source lines 187-232). -/
def apply_insurance_query_boosts (score : ℚ) (query_lower chunk_lower section_type : String) :
    ℚ :=
  let score :=
    if anyTermIn query_lower ["definition", "define", "what is", "meaning"] then
      boostIf (decide (section_type = "definitions")) 1.8
        (boostIf (strContains chunk_lower "means" || strContains chunk_lower "definition") 2.2
          score)
    else score
  let score := boostIf (anyTermIn query_lower ["covered", "coverage", "benefit", "include"] &&
    anyTermIn chunk_lower ["covered", "coverage", "benefit", "include", "pay", "reimburse"])
    1.8 score
  let score := boostIf (anyTermIn query_lower ["excluded", "exclusion", "not covered", "exception"] &&
    anyTermIn chunk_lower ["excluded", "exclusion", "not covered", "exception", "does not"])
    1.9 score
  let score := boostIf (anyTermIn query_lower ["days", "months", "years", "period", "duration"] &&
    (hasDigit chunk_lower && anyTermIn chunk_lower ["days", "months", "years"]))
    1.7 score
  let score := boostIf (anyTermIn query_lower ["limit", "amount", "maximum", "minimum", "sum"] &&
    anyTermIn chunk_lower ["limit", "amount", "maximum", "minimum", "sum", "usd", "inr", "$"])
    1.6 score
  insuranceTermsFoldAux query_lower chunk_lower insuranceTerms score

/-- The `VectorStore._apply_keyword_density_boost` (source lines 234-254):
`query_words` is the Python set of query words longer than 3 characters
(modelled by `dedup` of the filtered word list), `matches` the number of
those words occurring as substrings of the chunk, and the highest reached
coverage tier applies. -/
def apply_keyword_density_boost (score : ℚ) (query_lower chunk_lower : String) : ℚ :=
  let query_words := ((pySplitWs query_lower).filter (fun w => 3 < strLen w)).dedup
  if query_words = [] then score
  else
    let matchCount := (query_words.filter (fun w => strContains chunk_lower w)).length
    let match_frac : ℚ := (matchCount : ℚ) / (query_words.length : ℚ)
    if 0.8 ≤ match_frac then score * 1.4
    else if 0.6 ≤ match_frac then score * 1.2
    else if 0.4 ≤ match_frac then score * 1.1
    else score

/-- Class of a character for the phrase tokenizer: `0` word (`\w`),
`1` whitespace (`\s`), `2` other. -/
def charClass (c : Char) : Nat := if isWordChar c then 0 else if isWsChar c then 1 else 2

/-- Group a character list into maximal runs of one class, tagged with the
class; `acc` holds the current run (reversed) of class `k`. -/
def tokenizeAux : List Char → Nat → List Char → List (Nat × List Char)
  | [], k, acc => if acc = [] then [] else [(k, acc.reverse)]
  | c :: cs, k, acc =>
    if charClass c = k then tokenizeAux cs k (c :: acc)
    else if acc = [] then tokenizeAux cs (charClass c) [c]
    else (k, acc.reverse) :: tokenizeAux cs (charClass c) [c]

/-- The `re.findall(r'\b\w+\s+\w+(?:\s+\w+)*\b', s)` over the token runs:
a match is a maximal chain of word runs separated by whitespace runs,
kept only when it has at least two words; the matched text keeps the
original whitespace. The mode `some (cur, nw)` carries the chain built so
far and its word count. -/
def phraseScanToks : List (Nat × List Char) → Option (List Char × Nat) → List (List Char)
  | [], none => []
  | [], some (cur, nw) => if 2 ≤ nw then [cur] else []
  | (0, w) :: rest, none => phraseScanToks rest (some (w, 1))
  | _ :: rest, none => phraseScanToks rest none
  | (1, ws) :: (0, w) :: rest, some (cur, nw) => phraseScanToks rest (some (cur ++ ws ++ w, nw + 1))
  | (0, w) :: rest, some (cur, nw) =>
    (if 2 ≤ nw then [cur] else []) ++ phraseScanToks rest (some (w, 1))
  | _ :: rest, some (cur, nw) => (if 2 ≤ nw then [cur] else []) ++ phraseScanToks rest none

/-- The `VectorStore._apply_phrase_matching_boost` (source lines 256-266):
each extracted multi-word phrase found verbatim in the chunk multiplies the
score by 1.3 (stacking per phrase). -/
def apply_phrase_matching_boost (score : ℚ) (query_lower chunk_lower : String) : ℚ :=
  let query_phrases := (phraseScanToks (tokenizeAux query_lower.data 0 []) none).map String.mk
  query_phrases.foldl
    (fun sc phrase =>
      boostIf (decide (2 ≤ (pySplitWs phrase).length) && strContains chunk_lower phrase) 1.3 sc)
    score

/-- Python truthiness of the optional `query_text` argument. -/
def optStrTruthy : Option String → Bool
  | none => false
  | some s => !s.data.isEmpty

/-- The `VectorStore._calculate_enhanced_score` (source lines 129-185): the
intent-section block, the section-type base priority, the content-quality
multipliers, then — only when both query text and chunk text are truthy —
the three query-specific hybrid boosts on the lowercased texts. -/
def calculate_enhanced_score (base_score : ℚ) (metadata : ChunkMetadata)
    (query_text : Option String) (chunk_text : String) (query_intent : Option IntentResult) :
    ℚ :=
  let score := intentSectionBoost base_score query_intent metadata
  let section_type := metadata.type
  let score := sectionTypeBoost score section_type
  let score := boostIf metadata.has_definitions 1.5 score
  let score := boostIf metadata.has_numbers 1.2 score
  let score := boostIf metadata.is_heading 1.1 score
  if optStrTruthy query_text && !chunk_text.data.isEmpty then
    let query_lower := pyLower (query_text.getD "")
    let chunk_lower := pyLower chunk_text
    apply_phrase_matching_boost
      (apply_keyword_density_boost
        (apply_insurance_query_boosts score query_lower chunk_lower section_type)
        query_lower chunk_lower)
      query_lower chunk_lower
  else score

/-- One candidate of the `search_similar` result loop (source lines 81-110):
skip FAISS's `-1` padding, skip missing metadata, skip on metadata-filter
mismatch, compute the enhanced score, drop it when below the similarity
threshold, otherwise append the retrieval result carrying the boosted
score. The metadata filter dict of `_matches_filter` is abstracted as a
predicate on the metadata. -/
def searchLoopStep (st : VectorStoreState) (metadata_filter : Option (ChunkMetadata → Bool))
    (query_text : Option String) (query_intent : Option IntentResult)
    (acc : List RetrievalResult) (cand : ℚ × Int) : List RetrievalResult :=
  if cand.2 = -1 then acc
  else
    match dictGet cand.2 st.chunks_metadata with
    | none => acc
    | some chunk_data =>
      if (match metadata_filter with
          | some f => !f chunk_data.metadata
          | none => false) then acc
      else
        let enhanced_score :=
          calculate_enhanced_score cand.1 chunk_data.metadata query_text chunk_data.text
            query_intent
        if enhanced_score < SIMILARITY_THRESHOLD then acc
        else acc ++
          [⟨{ id := chunk_data.id, text := chunk_data.text, metadata := chunk_data.metadata,
              embedding := none }, enhanced_score⟩]

/-- The `VectorStore.search_similar` (source lines 61-120). The FAISS call
`self.index.search(query_vector, search_k)` is external (C library, float
inner products on externally normalized vectors); its zipped result rows
enter as the `candidates` list of `(score, index)` pairs. An empty index
short-circuits to the empty result; otherwise the candidate loop runs, the
survivors are sorted by enhanced score descending and truncated to `top_k`. -/
def search_similar (st : VectorStoreState) (candidates : List (ℚ × Int)) (top_k : Nat)
    (metadata_filter : Option (ChunkMetadata → Bool)) (query_text : Option String)
    (query_intent : Option IntentResult) : List RetrievalResult :=
  if st.ntotal = 0 then []
  else
    let results := candidates.foldl (searchLoopStep st metadata_filter query_text query_intent) []
    (List.insertionSort (fun a b : RetrievalResult => b.score ≤ a.score) results).take top_k

/-! ### Query engine (`services/query_engine.py`) -/

/-- The collaborators `_answer_question` calls, each a fallible step
(`Except.error` models a raised Python exception): single-text embedding,
intent analysis, similarity search, and LLM answer generation. -/
structure QaServices where
  encode_single_text : String → Except String (List ℚ)
  analyze_intent_svc : String → Except String IntentResult
  search_svc : List ℚ → String → IntentResult → Except String (List RetrievalResult)
  generate_answer : String → List RetrievalResult → Except String String

/-- The body of the `try` block of `QueryEngine._answer_question` (source
lines 77-109): embed the question, analyze intent, search, generate; the
first raised exception aborts the chain. -/
def answer_question_steps (svc : QaServices) (question : String) : Except String String :=
  match svc.encode_single_text question with
  | Except.error e => Except.error e
  | Except.ok emb =>
    match svc.analyze_intent_svc question with
    | Except.error e => Except.error e
    | Except.ok intent =>
      match svc.search_svc emb question intent with
      | Except.error e => Except.error e
      | Except.ok chunks => svc.generate_answer question chunks

/-- The `QueryEngine._answer_question` (source lines 75-112): any exception in
the step chain is caught and rendered as the placeholder answer
`"Error answering question: ..."`. -/
def answer_question (svc : QaServices) (question : String) : String :=
  match answer_question_steps svc question with
  | Except.ok a => a
  | Except.error e => "Error answering question: " ++ e

/-- The per-question loop of `QueryEngine.process_query` (source lines
48-52): every question is answered in order, one answer per question. -/
def process_questions (svc : QaServices) (questions : List String) : List String :=
  questions.map (answer_question svc)

/-! ### Concrete inputs used by the per-claim theorems and witnesses -/

/-- Shared concrete metadata: a `definitions`-type chunk with all boolean
flags off. -/
def mdDemo : ChunkMetadata :=
  { source := "document", sectionLabel := "", type := "definitions", chunk_type := "content",
    is_heading := false, chunk_index := 0, word_count := 2, has_numbers := false,
    has_definitions := false }

/-- Shared concrete store: one vector in the index, position 0 holding a
`definitions` chunk. -/
def demoStore : VectorStoreState :=
  { ntotal := 1, chunks_metadata := [(0, ⟨"id0", "Xy", mdDemo⟩)], fileIndex := none,
    fileMetadata := none }

/-- The retrieval result `search_similar` produces from `demoStore` for a
candidate with raw similarity 0.15: boosted score 0.15 × 1.6 = 0.24. -/
def demoResult : RetrievalResult :=
  ⟨{ id := "id0", text := "Xy", metadata := mdDemo, embedding := none }, 0.24⟩

/-- The store with no vectors, no metadata and no persisted files. -/
def emptyStore : VectorStoreState :=
  { ntotal := 0, chunks_metadata := [], fileIndex := none, fileMetadata := none }

/-- A concrete service bundle whose LLM step always raises. -/
def svcDemo : QaServices :=
  { encode_single_text := fun _ => Except.ok [],
    analyze_intent_svc := fun _ =>
      Except.ok ⟨"general", "general information", false, [], 0⟩,
    search_svc := fun _ _ _ => Except.ok [],
    generate_answer := fun _ _ => Except.error "llm unavailable" }

/-- The invariant C6 asserts of every produced chunk. -/
def chunkSizeInv (c : DocumentChunk) : Prop :=
  50 ≤ c.metadata.word_count ∧ c.metadata.word_count = numWords c.text

/-- A 56-word single-sentence document (one content section, one chunk). -/
def docC6 : String := joinSpace ("Beta" :: List.replicate 55 "z") ++ "."

/-- The single chunk `create_semantic_chunks` produces from `docC6` (the
chunk metadata depends only on the section's heading and kind). -/
def chunkC6 : DocumentChunk := create_chunk_with_metadata docC6 ⟨"", "", "content"⟩ 0

/-- A 45-word sentence (below the 50-word minimum). -/
def sentC2 : String := joinSpace ("Alpha" :: List.replicate 44 "y") ++ "."

/-- A one-line document whose two sentences have 45 and 56 words: appending
the second sentence overflows the 100-word window while the accumulated 45
words are below the 50-word minimum. -/
def docC2 : String := sentC2 ++ " " ++ docC6

/-- Chunk metadata with no boosting flags, used by the concrete stores. -/
def mdPlain : ChunkMetadata :=
  { source := "document", sectionLabel := "", type := "policy_clause",
    chunk_type := "content", is_heading := false, chunk_index := 0, word_count := 1,
    has_numbers := false, has_definitions := false }

/-- Three embedded chunks for the C1 counterexample. -/
def chA : DocumentChunk := { id := "a", text := "one", metadata := mdPlain, embedding := some [1] }

def chB : DocumentChunk := { id := "b", text := "two", metadata := mdPlain, embedding := some [1] }

def chC : DocumentChunk :=
  { id := "c", text := "three", metadata := mdPlain, embedding := some [1] }

/-- The intent-selection fold of `analyze_intent`, abstracted over the
per-category score function. -/
def intentFoldRun (ms : String × List String → ℚ) (l : List (String × List String))
    (b : String) (s : ℚ) : String × ℚ :=
  l.foldl (fun best p => if best.2 < ms p then (p.1, ms p) else best) (b, s)

example : pySplitWs "  a bc  d " = ["a", "bc", "d"] := by decide

example : split_into_sentences "Hi there. Next one! ok" = ["Hi there.", "Next one! ok"] := by decide

example : detect_section_type "This MEANS that" = "definitions" := by decide

example : detect_section_type "nothing here" = "policy_clause" := by decide

example : isSectionBreak "GENERAL EXCLUSIONS" = true := by decide

example : isSectionBreak "short words" = false := by decide

/-! ### Scorer algebra: every boost is a conditional multiplication by a
constant factor that does not depend on the running score -/

lemma boostIf_mono (k : ℚ) {a b : ℚ} (hk : 0 ≤ k) (c : Bool) (h : a ≤ b) :
    boostIf c k a ≤ boostIf c k b := by
  unfold boostIf
  split_ifs
  · exact mul_le_mul_of_nonneg_right h hk
  · exact h

lemma boostIf_ge (k : ℚ) {a : ℚ} (hk : 1 ≤ k) (c : Bool) (ha : 0 ≤ a) : a ≤ boostIf c k a := by
  unfold boostIf
  split_ifs
  · exact le_mul_of_one_le_right ha hk
  · exact le_refl a

lemma boostIf_ge_trans (k : ℚ) {a x : ℚ} (hk : 1 ≤ k) (c : Bool) (hax : a ≤ x) (ha : 0 ≤ a) :
    a ≤ boostIf c k x :=
  le_trans hax (boostIf_ge k hk c (le_trans ha hax))

lemma foldl_boost_mono {α : Type} (f : ℚ → α → ℚ)
    (hf : ∀ (x : α) (a b : ℚ), a ≤ b → f a x ≤ f b x) :
    ∀ (l : List α) (a b : ℚ), a ≤ b → l.foldl f a ≤ l.foldl f b := by
  intro l
  induction l with
  | nil => intro a b h; simpa using h
  | cons x rest ih => intro a b h; exact ih (f a x) (f b x) (hf x a b h)

lemma foldl_boost_ge {α : Type} (f : ℚ → α → ℚ)
    (hf : ∀ (x : α) (a : ℚ), 0 ≤ a → a ≤ f a x) :
    ∀ (l : List α) (a : ℚ), 0 ≤ a → a ≤ l.foldl f a := by
  intro l
  induction l with
  | nil => intro a _; simp
  | cons x rest ih =>
    intro a ha
    have h1 : a ≤ f a x := hf x a ha
    exact le_trans h1 (ih (f a x) (le_trans ha h1))

lemma foldl_boost_ge_trans {α : Type} (f : ℚ → α → ℚ)
    (hf : ∀ (x : α) (a : ℚ), 0 ≤ a → a ≤ f a x) (l : List α) {a x : ℚ}
    (hax : a ≤ x) (ha : 0 ≤ a) : a ≤ l.foldl f x :=
  le_trans hax (foldl_boost_ge f hf l x (le_trans ha hax))

lemma intentSectionBoost_mono {a b : ℚ} (qi : Option IntentResult) (md : ChunkMetadata)
    (h : a ≤ b) : intentSectionBoost a qi md ≤ intentSectionBoost b qi md := by
  unfold intentSectionBoost
  cases qi with
  | none => exact h
  | some q => dsimp only; split_ifs <;> nlinarith

lemma intentSectionBoost_ge {a : ℚ} (qi : Option IntentResult) (md : ChunkMetadata)
    (ha : 0 ≤ a) : a ≤ intentSectionBoost a qi md := by
  unfold intentSectionBoost
  cases qi with
  | none => exact le_refl a
  | some q => dsimp only; split_ifs <;> nlinarith

lemma sectionTypeBoost_mono {a b : ℚ} (t : String) (h : a ≤ b) :
    sectionTypeBoost a t ≤ sectionTypeBoost b t := by
  unfold sectionTypeBoost
  split_ifs <;> nlinarith

lemma sectionTypeBoost_ge {a : ℚ} (t : String) (ha : 0 ≤ a) : a ≤ sectionTypeBoost a t := by
  unfold sectionTypeBoost
  split_ifs <;> nlinarith

lemma sectionTypeBoost_ge_trans {a x : ℚ} (t : String) (hax : a ≤ x) (ha : 0 ≤ a) :
    a ≤ sectionTypeBoost x t :=
  le_trans hax (sectionTypeBoost_ge t (le_trans ha hax))

lemma insurance_boosts_mono {a b : ℚ} (q c st : String) (h : a ≤ b) :
    apply_insurance_query_boosts a q c st ≤ apply_insurance_query_boosts b q c st := by
  simp only [apply_insurance_query_boosts, insuranceTermsFoldAux]
  apply foldl_boost_mono
  · intro x a' b' h'
    exact boostIf_mono 1.5 (by norm_num) _ h'
  · apply boostIf_mono 1.6 (by norm_num)
    apply boostIf_mono 1.7 (by norm_num)
    apply boostIf_mono 1.9 (by norm_num)
    apply boostIf_mono 1.8 (by norm_num)
    split_ifs
    · exact boostIf_mono 1.8 (by norm_num) _ (boostIf_mono 2.2 (by norm_num) _ h)
    · exact h

lemma insurance_boosts_ge {a : ℚ} (q c st : String) (ha : 0 ≤ a) :
    a ≤ apply_insurance_query_boosts a q c st := by
  simp only [apply_insurance_query_boosts, insuranceTermsFoldAux]
  have d1 : a ≤ (if anyTermIn q ["definition", "define", "what is", "meaning"] = true then
      boostIf (decide (st = "definitions")) 1.8
        (boostIf (strContains c "means" || strContains c "definition") 2.2 a)
    else a) := by
    split_ifs
    · exact boostIf_ge_trans 1.8 (by norm_num) _ (boostIf_ge 2.2 (by norm_num) _ ha) ha
    · exact le_refl a
  apply foldl_boost_ge_trans
  · intro x a' h'
    exact boostIf_ge 1.5 (by norm_num) _ h'
  · exact boostIf_ge_trans 1.6 (by norm_num) _
      (boostIf_ge_trans 1.7 (by norm_num) _
        (boostIf_ge_trans 1.9 (by norm_num) _
          (boostIf_ge_trans 1.8 (by norm_num) _ d1 ha) ha) ha) ha
  · exact ha

lemma insurance_boosts_ge_trans {a x : ℚ} (q c st : String) (hax : a ≤ x) (ha : 0 ≤ a) :
    a ≤ apply_insurance_query_boosts x q c st :=
  le_trans hax (insurance_boosts_ge q c st (le_trans ha hax))

lemma keyword_density_mono {a b : ℚ} (q c : String) (h : a ≤ b) :
    apply_keyword_density_boost a q c ≤ apply_keyword_density_boost b q c := by
  simp only [apply_keyword_density_boost]
  split_ifs <;> nlinarith

lemma keyword_density_ge {a : ℚ} (q c : String) (ha : 0 ≤ a) :
    a ≤ apply_keyword_density_boost a q c := by
  simp only [apply_keyword_density_boost]
  split_ifs <;> nlinarith

lemma keyword_density_ge_trans {a x : ℚ} (q c : String) (hax : a ≤ x) (ha : 0 ≤ a) :
    a ≤ apply_keyword_density_boost x q c :=
  le_trans hax (keyword_density_ge q c (le_trans ha hax))

lemma phrase_matching_mono {a b : ℚ} (q c : String) (h : a ≤ b) :
    apply_phrase_matching_boost a q c ≤ apply_phrase_matching_boost b q c := by
  simp only [apply_phrase_matching_boost]
  apply foldl_boost_mono
  · intro x a' b' h'
    exact boostIf_mono 1.3 (by norm_num) _ h'
  · exact h

lemma phrase_matching_ge {a : ℚ} (q c : String) (ha : 0 ≤ a) :
    a ≤ apply_phrase_matching_boost a q c := by
  simp only [apply_phrase_matching_boost]
  apply foldl_boost_ge
  · intro x a' h'
    exact boostIf_ge 1.3 (by norm_num) _ h'
  · exact ha

lemma phrase_matching_ge_trans {a x : ℚ} (q c : String) (hax : a ≤ x) (ha : 0 ≤ a) :
    a ≤ apply_phrase_matching_boost x q c :=
  le_trans hax (phrase_matching_ge q c (le_trans ha hax))

lemma enhanced_score_mono {b1 b2 : ℚ} (md : ChunkMetadata) (qt : Option String) (ct : String)
    (qi : Option IntentResult) (h : b1 ≤ b2) :
    calculate_enhanced_score b1 md qt ct qi ≤ calculate_enhanced_score b2 md qt ct qi := by
  simp only [calculate_enhanced_score]
  split_ifs
  · apply phrase_matching_mono
    apply keyword_density_mono
    apply insurance_boosts_mono
    apply boostIf_mono 1.1 (by norm_num)
    apply boostIf_mono 1.2 (by norm_num)
    apply boostIf_mono 1.5 (by norm_num)
    exact sectionTypeBoost_mono _ (intentSectionBoost_mono _ _ h)
  · apply boostIf_mono 1.1 (by norm_num)
    apply boostIf_mono 1.2 (by norm_num)
    apply boostIf_mono 1.5 (by norm_num)
    exact sectionTypeBoost_mono _ (intentSectionBoost_mono _ _ h)

lemma enhanced_score_ge {b : ℚ} (md : ChunkMetadata) (qt : Option String) (ct : String)
    (qi : Option IntentResult) (hb : 0 ≤ b) : b ≤ calculate_enhanced_score b md qt ct qi := by
  simp only [calculate_enhanced_score]
  have t1 : b ≤ intentSectionBoost b qi md := intentSectionBoost_ge _ _ hb
  split_ifs
  · exact phrase_matching_ge_trans _ _
      (keyword_density_ge_trans _ _
        (insurance_boosts_ge_trans _ _ _
          (boostIf_ge_trans 1.1 (by norm_num) _
            (boostIf_ge_trans 1.2 (by norm_num) _
              (boostIf_ge_trans 1.5 (by norm_num) _
                (sectionTypeBoost_ge_trans _ t1 hb) hb) hb) hb) hb) hb) hb
  · exact boostIf_ge_trans 1.1 (by norm_num) _
      (boostIf_ge_trans 1.2 (by norm_num) _
        (boostIf_ge_trans 1.5 (by norm_num) _
          (sectionTypeBoost_ge_trans _ t1 hb) hb) hb) hb

/-- C4, counterexample. The claim asserts the scorer output is never below the
`raw_similarity` input "for every raw_similarity value"; at the negative raw
cosine similarity `-1` against a `definitions` chunk, the section-type
multiplier 1.6 lowers the score to `-1.6 < -1`. -/
theorem C4_counterexample : calculate_enhanced_score (-1) mdDemo none "" none < -1 := by
  norm_num [calculate_enhanced_score, intentSectionBoost, sectionTypeBoost, boostIf,
    optStrTruthy, mdDemo]

/-- C4 (amended): for fixed metadata, query text, chunk text and intent, the
scorer `_calculate_enhanced_score` is non-decreasing in `raw_similarity`
(every boost is a multiplication by a constant factor ≥ 1 that does not
depend on the running score), and whenever `raw_similarity ≥ 0` its output
is never below the `raw_similarity` input; for negative inputs the
multiplicative chain can lower the score. -/
theorem C4_enhanced_score_monotone (md : ChunkMetadata) (qt : Option String) (ct : String)
    (qi : Option IntentResult) (b1 b2 : ℚ) :
    (b1 ≤ b2 → calculate_enhanced_score b1 md qt ct qi ≤ calculate_enhanced_score b2 md qt ct qi) ∧
    (0 ≤ b1 → b1 ≤ calculate_enhanced_score b1 md qt ct qi) := by
  constructor
  · exact fun h => enhanced_score_mono md qt ct qi h
  · exact fun h => enhanced_score_ge md qt ct qi h

/-- C4, witness: the amended theorem applied at raw similarities 1 ≤ 2
against the concrete `definitions` metadata. -/
theorem C4_witness :
    calculate_enhanced_score 1 mdDemo none "" none ≤ calculate_enhanced_score 2 mdDemo none "" none ∧
    (1 : ℚ) ≤ calculate_enhanced_score 1 mdDemo none "" none :=
  ⟨(C4_enhanced_score_monotone mdDemo none "" none 1 2).1 (by norm_num),
   (C4_enhanced_score_monotone mdDemo none "" none 1 2).2 (by norm_num)⟩

lemma searchLoop_threshold (st : VectorStoreState) (filt : Option (ChunkMetadata → Bool))
    (qt : Option String) (qi : Option IntentResult) :
    ∀ (cands : List (ℚ × Int)) (acc : List RetrievalResult),
      (∀ r ∈ acc, SIMILARITY_THRESHOLD ≤ r.score) →
      ∀ r ∈ cands.foldl (searchLoopStep st filt qt qi) acc, SIMILARITY_THRESHOLD ≤ r.score := by
  intro cands
  induction cands with
  | nil => intro acc hacc; simpa using hacc
  | cons cand rest ih =>
    intro acc hacc
    simp only [List.foldl]
    apply ih
    intro r hr
    simp only [searchLoopStep] at hr
    split at hr
    · exact hacc r hr
    · split at hr
      · exact hacc r hr
      · split at hr
        · exact hacc r hr
        · split at hr
          · exact hacc r hr
          · rename_i hth
            rcases List.mem_append.mp hr with h' | h'
            · exact hacc r h'
            · rw [List.mem_singleton.mp h']
              exact not_lt.mp hth

/-- C3: every `RetrievalResult` returned by `search_similar` carries a score
not below `SIMILARITY_THRESHOLD` (0.2), for every store state, candidate
list, `top_k`, metadata filter, query text and intent; moreover the
threshold is compared against the boosted score produced by the scorer, not
the raw cosine similarity: a stored `definitions` chunk whose raw candidate
similarity 0.15 lies below the threshold is still returned, with its score
equal to the scorer's boosted output 0.24. -/
theorem C3_threshold_on_boosted_score (st : VectorStoreState) (candidates : List (ℚ × Int))
    (top_k : Nat) (filt : Option (ChunkMetadata → Bool)) (qt : Option String)
    (qi : Option IntentResult) :
    (∀ r ∈ search_similar st candidates top_k filt qt qi, SIMILARITY_THRESHOLD ≤ r.score) ∧
    search_similar demoStore [(0.15, 0)] 4 none none none = [demoResult] ∧
    (0.15 : ℚ) < SIMILARITY_THRESHOLD ∧
    demoResult.score = calculate_enhanced_score 0.15 mdDemo none "Xy" none := by
  refine ⟨?_, ?_, by norm_num [SIMILARITY_THRESHOLD], ?_⟩
  · intro r hr
    simp only [search_similar] at hr
    split at hr
    · simp at hr
    · have h1 := List.mem_of_mem_take hr
      rw [List.mem_insertionSort] at h1
      exact searchLoop_threshold st filt qt qi candidates [] (by simp) r h1
  · norm_num [search_similar, searchLoopStep, demoStore, dictGet, dictGetNat, demoResult,
      calculate_enhanced_score, intentSectionBoost, sectionTypeBoost, boostIf, optStrTruthy,
      SIMILARITY_THRESHOLD, List.insertionSort, List.orderedInsert, mdDemo]
  · norm_num [demoResult, calculate_enhanced_score, intentSectionBoost, sectionTypeBoost,
      boostIf, optStrTruthy, mdDemo]

/-- C3, witness: the threshold bound instantiated at the concrete store,
candidate list and returned result of the theorem's second conjunct. -/
theorem C3_witness : SIMILARITY_THRESHOLD ≤ demoResult.score := by
  have h := C3_threshold_on_boosted_score demoStore [(0.15, 0)] 4 none none none
  refine h.1 demoResult ?_
  rw [h.2.1]
  exact List.mem_singleton_self _

/-- C7: `search_similar` on an empty index returns the empty sequence (not
an error), for every candidate list, `top_k`, filter, query text and
intent; in particular any search performed after `complete_cleanup` (the
spec's purge) returns the empty sequence. -/
theorem C7_empty_index_search_empty (st st2 : VectorStoreState) (candidates : List (ℚ × Int))
    (top_k : Nat) (filt : Option (ChunkMetadata → Bool)) (qt : Option String)
    (qi : Option IntentResult) :
    (st.ntotal = 0 → search_similar st candidates top_k filt qt qi = []) ∧
    search_similar (complete_cleanup st2) candidates top_k filt qt qi = [] := by
  constructor
  · intro h
    simp [search_similar, h]
  · simp [search_similar, complete_cleanup]

/-- C7, witness: the empty-index clause applied to the concrete empty store
with a non-empty candidate list. -/
theorem C7_witness : search_similar emptyStore [(0.5, 0)] 4 none none none = [] :=
  (C7_empty_index_search_empty emptyStore emptyStore [(0.5, 0)] 4 none none none).1 rfl

/-- C10: calling `store_chunks` with an empty chunk list is a complete
no-op: the guard returns before `clear_index` runs, so the in-memory
vectors and metadata and both persisted files are exactly as before. -/
theorem C10_store_chunks_empty_noop (st : VectorStoreState) : store_chunks st [] = st := by
  simp [store_chunks]

/-- C8: the per-question loop of `process_query` produces exactly one answer
per question, each question answered independently by `_answer_question`;
and whenever any step of `_answer_question` (embedding, intent analysis,
search, or answer generation) raises, the exception is caught and converted
into the placeholder string `"Error answering question: ..."` for that
question only — `answer_question` is total, so the failure cannot abort the
remaining questions of the run. -/
theorem C8_per_question_failure_isolated (svc : QaServices) (questions : List String) :
    (process_questions svc questions).length = questions.length ∧
    (∀ i, i < questions.length →
      (process_questions svc questions).getD i "" = answer_question svc (questions.getD i "")) ∧
    (∀ q e, answer_question_steps svc q = Except.error e →
      answer_question svc q = "Error answering question: " ++ e) := by
  refine ⟨by simp [process_questions], ?_, ?_⟩
  · intro i hi
    have hx : questions[i]? = some questions[i] := List.getElem?_eq_getElem hi
    simp [process_questions, List.getD, List.getElem?_map, hx]
  · intro q e h
    simp [answer_question, h]

/-- C8, witness: with the failing concrete service bundle, the answer for a
question is the visible placeholder string. -/
theorem C8_witness :
    answer_question svcDemo "What is covered" =
      "Error answering question: " ++ "llm unavailable" :=
  (C8_per_question_failure_isolated svcDemo ["What is covered"]).2.2
    "What is covered" "llm unavailable" rfl

/-- C5: `detect_section_type` always returns a member of the closed category
set `{definitions, coverage, exclusions, limits, claims, premiums,
conditions, policy_clause}`; it coincides with the spec's priority-ordered
first-hit classifier `sectionTypeSpec` (categories checked in the stated
order with `definitions` first, the first category with a keyword hit
winning, `policy_clause` the fallback); and keyword matching is
case-insensitive: any two texts with the same lowercasing classify
identically. Determinism is immediate, the classifier being a pure function
of its argument. -/
theorem C5_section_type_closed_set (t s : String) :
    detect_section_type t ∈
      ["definitions", "coverage", "exclusions", "limits", "claims", "premiums",
       "conditions", "policy_clause"] ∧
    detect_section_type t = sectionTypeSpec t ∧
    (pyLower s = pyLower t → detect_section_type s = detect_section_type t) := by
  refine ⟨?_, ?_, ?_⟩
  · simp only [detect_section_type]
    split_ifs <;> simp
  · simp only [detect_section_type, sectionTypeSpec, sectionTypeOrder]
    split_ifs <;> simp_all [List.find?]
  · intro h
    simp only [detect_section_type]
    rw [h]

/-- C5, witness: the case-insensitivity clause applied to a concrete pair of
texts differing only in case. -/
theorem C5_witness :
    detect_section_type "COVERAGE Details" = detect_section_type "coverage details" :=
  (C5_section_type_closed_set "coverage details" "COVERAGE Details").2.2 (by decide)

lemma create_chunk_inv (t : String) (sec : DocSection) (i : Nat) (h : 50 ≤ numWords t) :
    chunkSizeInv (create_chunk_with_metadata t sec i) := by
  simp [chunkSizeInv, create_chunk_with_metadata, h]

lemma chunkStep_inv (sec : DocSection) (st : ChunkState) (s : String)
    (h : ∀ c ∈ st.1, chunkSizeInv c) : ∀ c ∈ (chunkStep sec st s).1, chunkSizeInv c := by
  intro c hc
  simp only [chunkStep] at hc
  split at hc
  · dsimp only at hc
    split at hc
    · rename_i hge
      rcases List.mem_append.mp hc with h' | h'
      · exact h c h'
      · rw [List.mem_singleton.mp h']
        exact create_chunk_inv _ sec _ hge
    · exact h c hc
  · dsimp only at hc
    exact h c hc

lemma foldl_chunkStep_inv (sec : DocSection) :
    ∀ (sents : List String) (st : ChunkState), (∀ c ∈ st.1, chunkSizeInv c) →
      ∀ c ∈ (sents.foldl (chunkStep sec) st).1, chunkSizeInv c := by
  intro sents
  induction sents with
  | nil => intro st h; simpa using h
  | cons s rest ih =>
    intro st h
    simp only [List.foldl]
    exact ih _ (chunkStep_inv sec st s h)

lemma create_overlapping_chunks_inv (sec : DocSection) :
    ∀ c ∈ create_overlapping_chunks sec, chunkSizeInv c := by
  intro c hc
  simp only [create_overlapping_chunks] at hc
  split at hc
  · split at hc
    · rename_i hge
      rcases List.mem_append.mp hc with h' | h'
      · exact foldl_chunkStep_inv sec _ _ (by simp) c h'
      · rw [List.mem_singleton.mp h']
        exact create_chunk_inv _ sec _ hge
    · exact foldl_chunkStep_inv sec _ _ (by simp) c hc
  · exact foldl_chunkStep_inv sec _ _ (by simp) c hc

/-- C6: every chunk produced by `create_semantic_chunks` has metadata
`word_count` at least the 50-word minimum (a document too short to reach
the minimum therefore yields zero chunks), and the `word_count` field
equals the length of the chunk's text split on whitespace. -/
theorem C6_chunk_word_count (text : String) (c : DocumentChunk)
    (hc : c ∈ create_semantic_chunks text) :
    50 ≤ c.metadata.word_count ∧ c.metadata.word_count = numWords c.text := by
  simp only [create_semantic_chunks, List.mem_flatten] at hc
  obtain ⟨l, hl, hcl⟩ := hc
  rw [List.mem_map] at hl
  obtain ⟨sec, _, rfl⟩ := hl
  exact create_overlapping_chunks_inv sec c hcl

set_option maxRecDepth 100000 in
/-- C6, witness: the theorem applied to the concrete 56-word document and
its produced chunk. -/
theorem C6_witness :
    50 ≤ chunkC6.metadata.word_count ∧ chunkC6.metadata.word_count = numWords chunkC6.text :=
  C6_chunk_word_count docC6 chunkC6 (by decide)

set_option maxRecDepth 400000 in
/-- C2, counterexample: in `create_semantic_chunks docC2` the 45-word first
sentence is a sentence of the document (as tokenized by the source's
sentence splitter) yet occurs in no produced chunk: at the window overflow
the below-minimum accumulated chunk is discarded, not extended, so the
concatenation of chunk texts omits a full sentence. -/
theorem C2_counterexample :
    sentC2 ∈
      ((split_by_semantic_boundaries docC2).map (fun sec => split_into_sentences sec.text)).flatten ∧
    strContains (joinSpace ((create_semantic_chunks docC2).map (fun c => c.text))) sentC2 =
      false := by
  decide

/-- C2 (amended): when the next sentence would overflow the 100-word window
and the accumulated chunk is non-empty, the chunker emits the accumulated
chunk only if it reaches the 50-word minimum and otherwise discards it; in
both cases it reseeds the accumulator with the greedy 20-word overlap
suffix plus the new sentence, so the sentences of a below-minimum
accumulated chunk that lie outside the overlap suffix are dropped and the
concatenation of chunk texts need not contain every sentence of the
document. -/
theorem C2_window_overflow_reseeds (sec : DocSection) (chunks : List DocumentChunk)
    (cur : List String) (w : Nat) (s : String) (hover : 100 < w + numWords s)
    (hne : cur ≠ []) :
    chunkStep sec (chunks, cur, w) s =
      ((if 50 ≤ numWords (joinSpace cur) then
          chunks ++ [create_chunk_with_metadata (joinSpace cur) sec chunks.length]
        else chunks),
       get_overlap_sentences cur 20 ++ [s],
       ((get_overlap_sentences cur 20 ++ [s]).map numWords).sum) := by
  simp only [chunkStep]
  rw [if_pos ⟨hover, hne⟩]

/-- C2, witness: the amended theorem applied to a concrete overflow state
whose two-word accumulated chunk is below the minimum and is discarded. -/
theorem C2_witness :
    chunkStep ⟨"", "", "content"⟩ ([], ["Hello world"], 200) "Next" =
      ([], ["Hello world", "Next"], 3) :=
  (C2_window_overflow_reseeds ⟨"", "", "content"⟩ [] ["Hello world"] 200 "Next" (by decide)
    (by decide)).trans (by decide)

lemma dictGetNat_insert_self (k : Nat) (v : StoredChunk) :
    ∀ d, dictGetNat k (dictInsert k v d) = some v := by
  intro d
  induction d with
  | nil => simp [dictInsert, dictGetNat]
  | cons p rest ih =>
    obtain ⟨k', v'⟩ := p
    by_cases h : k' = k
    · simp [dictInsert, h, dictGetNat]
    · simp [dictInsert, h, dictGetNat, ih]

lemma dictGetNat_insert_ne (k k' : Nat) (v : StoredChunk) (h : k' ≠ k) :
    ∀ d, dictGetNat k (dictInsert k' v d) = dictGetNat k d := by
  intro d
  induction d with
  | nil => simp [dictInsert, dictGetNat, h]
  | cons p rest ih =>
    obtain ⟨k0, v0⟩ := p
    by_cases h0 : k0 = k'
    · subst h0
      simp [dictInsert, dictGetNat, h]
    · simp [dictInsert, h0, dictGetNat, ih]

lemma dictGetNat_insert_isSome (k k' : Nat) (v : StoredChunk) (d : List (Nat × StoredChunk))
    (h : (dictGetNat k d).isSome) : (dictGetNat k (dictInsert k' v d)).isSome := by
  by_cases hk : k' = k
  · subst hk
    simp [dictGetNat_insert_self]
  · rw [dictGetNat_insert_ne k k' v hk]
    exact h

lemma foldInsert_isSome (ps : List (Nat × DocumentChunk)) :
    ∀ (d : List (Nat × StoredChunk)) (k : Nat), (dictGetNat k d).isSome →
      (dictGetNat k (ps.foldl (fun d p => dictInsert p.1 (toStoredChunk p.2) d) d)).isSome := by
  induction ps with
  | nil => intro d k h; simpa using h
  | cons p rest ih =>
    intro d k h
    simp only [List.foldl]
    exact ih _ k (dictGetNat_insert_isSome k p.1 (toStoredChunk p.2) d h)

lemma foldInsert_lookup_of_notmem (ps : List (Nat × DocumentChunk)) :
    ∀ (d : List (Nat × StoredChunk)) (k : Nat), (∀ p ∈ ps, p.1 ≠ k) →
      dictGetNat k (ps.foldl (fun d p => dictInsert p.1 (toStoredChunk p.2) d) d) =
        dictGetNat k d := by
  induction ps with
  | nil => intro d k _; rfl
  | cons p rest ih =>
    intro d k h
    simp only [List.foldl]
    rw [ih _ k (fun q hq => h q (List.mem_cons_of_mem p hq)),
      dictGetNat_insert_ne k p.1 _ (h p (List.mem_cons_self p rest))]

lemma foldInsert_lookup_mem (ps : List (Nat × DocumentChunk)) :
    ∀ (d : List (Nat × StoredChunk)), (ps.map Prod.fst).Nodup → ∀ p ∈ ps,
      dictGetNat p.1 (ps.foldl (fun d q => dictInsert q.1 (toStoredChunk q.2) d) d) =
        some (toStoredChunk p.2) := by
  induction ps with
  | nil => intro d _ p hp; simp at hp
  | cons q rest ih =>
    intro d hnd p hp
    simp only [List.map_cons, List.nodup_cons] at hnd
    obtain ⟨hqnot, hrest⟩ := hnd
    simp only [List.foldl]
    rcases List.mem_cons.mp hp with h | h
    · subst h
      rw [foldInsert_lookup_of_notmem rest _ p.1
        (fun r hr hc => hqnot (hc ▸ List.mem_map_of_mem Prod.fst hr))]
      exact dictGetNat_insert_self p.1 _ d
    · exact ih _ hrest p h

/-- C1 (amended): for every store state and non-empty chunk list,
`store_chunks` discards all prior vectors and sets the vector count to the
number `n` of chunks with a truthy embedding; metadata keys `0..n-1` are
overwritten with the embedded chunks in input order, so position `i < n`
corresponds to metadata key `i`; but no metadata key present before the
call is ever removed (`clear_index` deliberately keeps the metadata dict),
so when the previous contents had more entries than `n` the metadata map
retains more keys than the index holds vectors. -/
theorem C1_store_chunks_rebuild (st : VectorStoreState) (chunks : List DocumentChunk)
    (h : chunks ≠ []) :
    (store_chunks st chunks).ntotal = (chunks.filter chunkTruthyEmbedding).length ∧
    (∀ p ∈ (chunks.filter chunkTruthyEmbedding).enum,
      dictGetNat p.1 (store_chunks st chunks).chunks_metadata = some (toStoredChunk p.2)) ∧
    (∀ k, (dictGetNat k st.chunks_metadata).isSome →
      (dictGetNat k (store_chunks st chunks).chunks_metadata).isSome) := by
  simp only [store_chunks, if_neg h]
  split_ifs with hemb
  · refine ⟨?_, ?_, ?_⟩
    · simp [hemb, clear_index]
    · intro p hp
      rw [hemb] at hp
      simp at hp
    · intro k hk
      exact foldInsert_isSome _ _ k hk
  · refine ⟨rfl, ?_, ?_⟩
    · intro p hp
      exact foldInsert_lookup_mem _ _ (List.nodup_enum_map_fst _) p hp
    · intro k hk
      exact foldInsert_isSome _ _ k hk

/-- C1, counterexample: after storing two chunks and then rebuilding with a
single chunk (both calls with non-empty embedded chunk lists), the index
holds 1 vector while the metadata dict still has 2 keys, the stale snapshot
of the second old chunk surviving at key 1 — the vector count and the
metadata key count diverge, refuting the claim that every prior metadata
entry is discarded and that the counts always agree. -/
theorem C1_counterexample :
    (store_chunks (store_chunks emptyStore [chA, chB]) [chC]).ntotal = 1 ∧
    (store_chunks (store_chunks emptyStore [chA, chB]) [chC]).chunks_metadata.length = 2 ∧
    dictGetNat 1 (store_chunks (store_chunks emptyStore [chA, chB]) [chC]).chunks_metadata =
      some (toStoredChunk chB) := by
  decide

/-- C1, witness: the amended theorem applied to the empty store and one
embedded chunk. -/
theorem C1_witness :
    (store_chunks emptyStore [chA]).ntotal = ([chA].filter chunkTruthyEmbedding).length ∧
    (∀ p ∈ ([chA].filter chunkTruthyEmbedding).enum,
      dictGetNat p.1 (store_chunks emptyStore [chA]).chunks_metadata =
        some (toStoredChunk p.2)) ∧
    (∀ k, (dictGetNat k emptyStore.chunks_metadata).isSome →
      (dictGetNat k (store_chunks emptyStore [chA]).chunks_metadata).isSome) :=
  C1_store_chunks_rebuild emptyStore [chA] (by decide)

lemma intentFoldRun_inv (ms : String × List String → ℚ) :
    ∀ (l : List (String × List String)) (b : String) (s : ℚ),
      (((intentFoldRun ms l b s).1 = b ∧ (intentFoldRun ms l b s).2 = s) ∨
        ∃ p ∈ l, (intentFoldRun ms l b s).1 = p.1 ∧ (intentFoldRun ms l b s).2 = ms p ∧
          s < (intentFoldRun ms l b s).2) ∧
      (∀ p ∈ l, ms p ≤ (intentFoldRun ms l b s).2) ∧ s ≤ (intentFoldRun ms l b s).2 := by
  intro l
  induction l with
  | nil => intro b s; simp [intentFoldRun]
  | cons q rest ih =>
    intro b s
    by_cases h : s < ms q
    · have hstep : intentFoldRun ms (q :: rest) b s = intentFoldRun ms rest q.1 (ms q) := by
        simp [intentFoldRun, h]
      rw [hstep]
      obtain ⟨hd, hb, hs⟩ := ih q.1 (ms q)
      refine ⟨?_, ?_, ?_⟩
      · rcases hd with ⟨h1, h2⟩ | ⟨p, hp, h1, h2, h3⟩
        · exact Or.inr ⟨q, List.mem_cons_self q rest, h1, h2, by rw [h2]; exact h⟩
        · exact Or.inr ⟨p, List.mem_cons_of_mem q hp, h1, h2, lt_of_lt_of_le h hs⟩
      · intro p hp
        rcases List.mem_cons.mp hp with rfl | hp'
        · exact hs
        · exact hb p hp'
      · exact le_of_lt (lt_of_lt_of_le h hs)
    · have hstep : intentFoldRun ms (q :: rest) b s = intentFoldRun ms rest b s := by
        simp [intentFoldRun, h]
      rw [hstep]
      obtain ⟨hd, hb, hs⟩ := ih b s
      refine ⟨?_, ?_, hs⟩
      · rcases hd with ⟨h1, h2⟩ | ⟨p, hp, h1, h2, h3⟩
        · exact Or.inl ⟨h1, h2⟩
        · exact Or.inr ⟨p, List.mem_cons_of_mem q hp, h1, h2, h3⟩
      · intro p hp
        rcases List.mem_cons.mp hp with rfl | hp'
        · exact le_trans (not_lt.mp h) hs
        · exact hb p hp'

/-- C9: `analyze_intent` returns an intent type from the closed set
(`general` plus the six defined categories); it returns `general` exactly
when no category's maximum dot-product similarity with the question
embedding strictly exceeds 0, and otherwise returns a defined category
whose maximum similarity is strictly positive and is the highest among all
categories. -/
theorem C9_intent_argmax (encode : String → List ℚ) (question : String) :
    (analyze_intent encode question).intent_type ∈
      "general" :: intentPatterns.map Prod.fst ∧
    (((analyze_intent encode question).intent_type = "general" ∧
        ∀ p ∈ intentPatterns, intentMaxSim encode question p ≤ 0) ∨
      (∃ p ∈ intentPatterns, (analyze_intent encode question).intent_type = p.1 ∧
        p.1 ≠ "general" ∧ 0 < intentMaxSim encode question p ∧
        ∀ q ∈ intentPatterns,
          intentMaxSim encode question q ≤ intentMaxSim encode question p)) := by
  have hrfl : (analyze_intent encode question).intent_type =
      (intentFoldRun (intentMaxSim encode question) intentPatterns "general" 0).1 := rfl
  obtain ⟨hd, hb, _⟩ := intentFoldRun_inv (intentMaxSim encode question) intentPatterns
    "general" 0
  rcases hd with ⟨h1, h2⟩ | ⟨p, hp, h1, h2, h3⟩
  · constructor
    · rw [hrfl, h1]
      exact List.mem_cons_self _ _
    · exact Or.inl ⟨by rw [hrfl, h1], fun p hp => h2 ▸ hb p hp⟩
  · constructor
    · rw [hrfl, h1]
      exact List.mem_cons_of_mem _ (List.mem_map_of_mem Prod.fst hp)
    · refine Or.inr ⟨p, hp, by rw [hrfl, h1], ?_, ?_, ?_⟩
      · have hmem : p.1 ∈ intentPatterns.map Prod.fst := List.mem_map_of_mem Prod.fst hp
        simp only [intentPatterns, List.map_cons, List.map_nil, List.mem_cons,
          List.not_mem_nil, or_false] at hmem
        rcases hmem with h | h | h | h | h | h <;> rw [h] <;> decide
      · rw [← h2]
        exact h3
      · intro q hq
        rw [← h2]
        exact hb q hq
